import Mathlib

/-!
Verification of the investment-scoring pipeline of the repository
(inmobiliaria-scraper): the Cleaner (DataProcessor.clean_data), the
Aggregator (DataProcessor.calculate_roi_potential) and the
Scorer/Recommender (InvestmentOptimizer.calculate_investment_score,
get_top_opportunities, get_investment_recommendation).

Numeric columns of the pandas frames are modelled as rationals; a float
NaN is modelled as `Option.none` where it can arise (the ROI column of
the scorer).  String columns are Lean strings; the Python string methods
used by the code (strip, title, lower, substring containment) are
modelled character by character for the ASCII letters, which covers the
alphabet the code manipulates.
-/

namespace ProyectoD

/-! ## Python string primitives used by the code -/

/-- Model of the ASCII action of Python str.lower on one character. -/
def pyLowerChar (c : Char) : Char :=
  match c with
  | 'A' => 'a' | 'B' => 'b' | 'C' => 'c' | 'D' => 'd' | 'E' => 'e' | 'F' => 'f'
  | 'G' => 'g' | 'H' => 'h' | 'I' => 'i' | 'J' => 'j' | 'K' => 'k' | 'L' => 'l'
  | 'M' => 'm' | 'N' => 'n' | 'O' => 'o' | 'P' => 'p' | 'Q' => 'q' | 'R' => 'r'
  | 'S' => 's' | 'T' => 't' | 'U' => 'u' | 'V' => 'v' | 'W' => 'w' | 'X' => 'x'
  | 'Y' => 'y' | 'Z' => 'z'
  | _ => c

/-- Model of the ASCII action of Python str.upper on one character. -/
def pyUpperChar (c : Char) : Char :=
  match c with
  | 'a' => 'A' | 'b' => 'B' | 'c' => 'C' | 'd' => 'D' | 'e' => 'E' | 'f' => 'F'
  | 'g' => 'G' | 'h' => 'H' | 'i' => 'I' | 'j' => 'J' | 'k' => 'K' | 'l' => 'L'
  | 'm' => 'M' | 'n' => 'N' | 'o' => 'O' | 'p' => 'P' | 'q' => 'Q' | 'r' => 'R'
  | 's' => 'S' | 't' => 'T' | 'u' => 'U' | 'v' => 'V' | 'w' => 'W' | 'x' => 'X'
  | 'y' => 'Y' | 'z' => 'Z'
  | _ => c

theorem pyLowerChar_pyLowerChar (c : Char) :
    pyLowerChar (pyLowerChar c) = pyLowerChar c := by
  by_cases h : pyLowerChar c = c
  · rw [h]; exact h
  · unfold pyLowerChar at h
    split at h
    all_goals first
    | decide
    | exact absurd rfl h

theorem pyUpperChar_pyUpperChar (c : Char) :
    pyUpperChar (pyUpperChar c) = pyUpperChar c := by
  by_cases h : pyUpperChar c = c
  · rw [h]; exact h
  · unfold pyUpperChar at h
    split at h
    all_goals first
    | decide
    | exact absurd rfl h

theorem isAlpha_pyLowerChar (c : Char) :
    (pyLowerChar c).isAlpha = c.isAlpha := by
  unfold pyLowerChar
  split <;> simp_all

theorem isAlpha_pyUpperChar (c : Char) :
    (pyUpperChar c).isAlpha = c.isAlpha := by
  unfold pyUpperChar
  split <;> simp_all

theorem isWhitespace_pyLowerChar (c : Char) :
    (pyLowerChar c).isWhitespace = c.isWhitespace := by
  unfold pyLowerChar
  split <;> simp_all

theorem isWhitespace_pyUpperChar (c : Char) :
    (pyUpperChar c).isWhitespace = c.isWhitespace := by
  unfold pyUpperChar
  split <;> simp_all

/-- Model of Python str.strip on a character list: whitespace is removed
from the front and from the back. -/
def stripChars (l : List Char) : List Char :=
  ((l.dropWhile Char.isWhitespace).reverse.dropWhile Char.isWhitespace).reverse

/-- Model of Python str.title: a character following a cased (here:
ASCII-alphabetic) character is lowercased, any other character is
uppercased; case mapping leaves non-letters unchanged. -/
def titleGo : Bool → List Char → List Char
  | _, [] => []
  | prev, c :: cs =>
    (if prev then pyLowerChar c else pyUpperChar c) :: titleGo c.isAlpha cs

def titleChars (l : List Char) : List Char := titleGo false l

/-- Model of Python str.strip. -/
def pyStrip (s : String) : String := ⟨stripChars s.data⟩

/-- Model of Python str.title. -/
def pyTitle (s : String) : String := ⟨titleChars s.data⟩

/-- The neighborhood normalization of clean_data:
df.barrio.str.strip().str.title(). -/
def normalizeBarrio (s : String) : String := pyTitle (pyStrip s)

/-- Model of Python str.lower. -/
def pyLower (s : String) : String := ⟨s.data.map pyLowerChar⟩

theorem titleGo_titleGo (l : List Char) :
    ∀ prev, titleGo prev (titleGo prev l) = titleGo prev l := by
  induction l with
  | nil => intro prev; rfl
  | cons c cs ih =>
    intro prev
    cases prev <;>
      simp [titleGo, pyLowerChar_pyLowerChar, pyUpperChar_pyUpperChar,
        isAlpha_pyLowerChar, isAlpha_pyUpperChar, ih]

theorem map_isWhitespace_titleGo (l : List Char) :
    ∀ prev, (titleGo prev l).map Char.isWhitespace = l.map Char.isWhitespace := by
  induction l with
  | nil => intro prev; rfl
  | cons c cs ih =>
    intro prev
    cases prev <;>
      simp [titleGo, isWhitespace_pyLowerChar, isWhitespace_pyUpperChar, ih]

theorem length_dropWhile_le' (p : α → Bool) (l : List α) :
    (l.dropWhile p).length ≤ l.length := by
  induction l with
  | nil => simp
  | cons a t ih =>
    rw [List.dropWhile_cons]
    split
    · exact Nat.le_trans ih (Nat.le_succ _)
    · exact Nat.le_refl _

theorem head_false_of_dropWhile_eq_self {p : α → Bool} {a : α} {t : List α}
    (h : (a :: t).dropWhile p = a :: t) : p a = false := by
  by_cases hp : p a = true
  · rw [List.dropWhile_cons, if_pos hp] at h
    have hlen : (t.dropWhile p).length ≤ t.length := length_dropWhile_le' p t
    rw [h] at hlen
    simp at hlen
  · simpa using hp

theorem dropWhile_eq_self_of_head_false {p : α → Bool} {a : α} {t : List α}
    (h : p a = false) : (a :: t).dropWhile p = a :: t := by
  rw [List.dropWhile_cons, if_neg (by simp [h])]

theorem dropWhile_dropWhile (p : α → Bool) (l : List α) :
    (l.dropWhile p).dropWhile p = l.dropWhile p := by
  induction l with
  | nil => rfl
  | cons a t ih =>
    rw [List.dropWhile_cons]
    split
    · exact ih
    · rename_i hp
      exact dropWhile_eq_self_of_head_false (by simpa using hp)

theorem dropWhile_eq_self_of_isPrefix {p : α → Bool} {l l' : List α}
    (h : l.dropWhile p = l) (hpre : l' <+: l) : l'.dropWhile p = l' := by
  cases l' with
  | nil => rfl
  | cons a t' =>
    cases l with
    | nil => exact absurd hpre (by simp)
    | cons b t =>
      obtain ⟨r, hr⟩ := hpre
      rw [List.cons_append] at hr
      injection hr with h1 h2
      subst h1
      exact dropWhile_eq_self_of_head_false (head_false_of_dropWhile_eq_self h)

theorem dropWhile_eq_self_of_map_eq {p : α → Bool} {l l' : List α}
    (hmask : l'.map p = l.map p) (h : l.dropWhile p = l) :
    l'.dropWhile p = l' := by
  cases l' with
  | nil => rfl
  | cons a t' =>
    cases l with
    | nil => simp at hmask
    | cons b t =>
      simp only [List.map_cons, List.cons.injEq] at hmask
      exact dropWhile_eq_self_of_head_false
        (hmask.1.trans (head_false_of_dropWhile_eq_self h))

theorem stripChars_dropWhile_front (l : List Char) :
    (stripChars l).dropWhile Char.isWhitespace = stripChars l := by
  unfold stripChars
  set m := l.dropWhile Char.isWhitespace with hm
  have hmself : m.dropWhile Char.isWhitespace = m := dropWhile_dropWhile _ l
  have hsuf : m.reverse.dropWhile Char.isWhitespace <:+ m.reverse :=
    List.dropWhile_suffix _
  have hpre : (m.reverse.dropWhile Char.isWhitespace).reverse <+: m := by
    have := List.reverse_prefix.mpr hsuf
    simpa using this
  exact dropWhile_eq_self_of_isPrefix hmself hpre

theorem stripChars_dropWhile_back (l : List Char) :
    (stripChars l).reverse.dropWhile Char.isWhitespace = (stripChars l).reverse := by
  unfold stripChars
  rw [List.reverse_reverse]
  exact dropWhile_dropWhile _ _

theorem stripChars_eq_self (l : List Char)
    (h1 : l.dropWhile Char.isWhitespace = l)
    (h2 : l.reverse.dropWhile Char.isWhitespace = l.reverse) :
    stripChars l = l := by
  unfold stripChars
  rw [h1, h2, List.reverse_reverse]

theorem stripChars_titleChars_stripChars (l : List Char) :
    stripChars (titleChars (stripChars l)) = titleChars (stripChars l) := by
  have hmask : (titleChars (stripChars l)).map Char.isWhitespace
      = (stripChars l).map Char.isWhitespace :=
    map_isWhitespace_titleGo (stripChars l) false
  have hmaskrev : (titleChars (stripChars l)).reverse.map Char.isWhitespace
      = (stripChars l).reverse.map Char.isWhitespace := by
    rw [List.map_reverse, List.map_reverse, hmask]
  exact stripChars_eq_self _
    (dropWhile_eq_self_of_map_eq hmask (stripChars_dropWhile_front l))
    (dropWhile_eq_self_of_map_eq hmaskrev (stripChars_dropWhile_back l))

/-- Applying the barrio normalization twice is the same as applying it
once: the stripped string stays stripped under title casing and title
casing is idempotent. -/
theorem normalizeBarrio_normalizeBarrio (s : String) :
    normalizeBarrio (normalizeBarrio s) = normalizeBarrio s := by
  unfold normalizeBarrio pyTitle pyStrip
  show (⟨titleChars (stripChars (titleChars (stripChars s.data)))⟩ : String)
      = ⟨titleChars (stripChars s.data)⟩
  rw [stripChars_titleChars_stripChars]
  show (⟨titleGo false (titleGo false (stripChars s.data))⟩ : String) = _
  rw [titleGo_titleGo]
  rfl

/-! ## config/settings.py : filtering bounds -/

def MIN_PRICE : ℚ := 50000

def MAX_PRICE : ℚ := 500000

def MIN_M2 : ℚ := 30

def MAX_M2 : ℚ := 200

/-! ## scraping/data_processor.py : DataProcessor.clean_data -/

/-- One row of the propiedades frame.  A pandas NaN in a column is
modelled as none.  The scraped_at column is never touched by the
code under verification and is omitted.  Column names with a tilde in
the source (categoria_tamano) are transliterated to plain ASCII because
Lean identifiers do not accept the tilde letter. -/
structure RawRow where
  precio : Option ℚ
  metros_cuadrados : Option ℚ
  barrio : Option String
  tipo_operacion : String
  dormitorios : Option ℚ
  precio_por_m2 : Option ℚ
  categoria_precio : Option String
  categoria_tamano : Option String
deriving DecidableEq

/-- pd.cut of precio with bins [0, 100000, 200000, 300000, inf]; a value
outside every bin (p ≤ 0) becomes NaN. -/
def categoriaPrecio (p : ℚ) : Option String :=
  if p ≤ 0 then none
  else if p ≤ 100000 then some "Económica"
  else if p ≤ 200000 then some "Media"
  else if p ≤ 300000 then some "Alta"
  else some "Premium"

/-- pd.cut of metros_cuadrados with bins [0, 50, 80, 120, inf]. -/
def categoriaTamano (m : ℚ) : Option String :=
  if m ≤ 0 then none
  else if m ≤ 50 then some "Pequeña"
  else if m ≤ 80 then some "Mediana"
  else if m ≤ 120 then some "Grande"
  else some "Extra Grande"

/-- The dropna step of clean_data on subset [precio, metros_cuadrados,
barrio]. -/
def dropnaCheck (r : RawRow) : Bool :=
  r.precio.isSome && r.metros_cuadrados.isSome && r.barrio.isSome

/-- The range filter of clean_data; a pandas comparison against NaN is
false, hence the none branch. -/
def boundsCheck (r : RawRow) : Bool :=
  match r.precio, r.metros_cuadrados with
  | some p, some m =>
    decide (MIN_PRICE ≤ p) && decide (p ≤ MAX_PRICE) &&
      decide (MIN_M2 ≤ m) && decide (m ≤ MAX_M2)
  | _, _ => false

/-- The column assignments of clean_data: derived precio_por_m2,
normalized barrio and the two categorical columns. -/
def deriveColumns (r : RawRow) : RawRow :=
  { r with
    precio_por_m2 :=
      match r.precio, r.metros_cuadrados with
      | some p, some m => some (p / m)
      | _, _ => none
    barrio := r.barrio.map normalizeBarrio
    categoria_precio := r.precio.bind categoriaPrecio
    categoria_tamano := r.metros_cuadrados.bind categoriaTamano }

/-- DataProcessor.clean_data as a table transformer. -/
def clean_data (df : List RawRow) : List RawRow :=
  ((df.filter dropnaCheck).filter boundsCheck).map deriveColumns

theorem deriveColumns_precio (r : RawRow) :
    (deriveColumns r).precio = r.precio := rfl

theorem deriveColumns_metros (r : RawRow) :
    (deriveColumns r).metros_cuadrados = r.metros_cuadrados := rfl

theorem dropnaCheck_deriveColumns (r : RawRow) :
    dropnaCheck (deriveColumns r) = dropnaCheck r := by
  simp [dropnaCheck, deriveColumns]

theorem boundsCheck_deriveColumns (r : RawRow) :
    boundsCheck (deriveColumns r) = boundsCheck r := rfl

theorem deriveColumns_deriveColumns (r : RawRow) :
    deriveColumns (deriveColumns r) = deriveColumns r := by
  cases hb : r.barrio with
  | none => simp [deriveColumns, hb]
  | some b => simp [deriveColumns, hb, normalizeBarrio_normalizeBarrio]

theorem filter_map_deriveColumns (p : RawRow → Bool)
    (hp : ∀ r, p (deriveColumns r) = p r) (l : List RawRow)
    (hl : ∀ r ∈ l, p r = true) :
    (l.map deriveColumns).filter p = l.map deriveColumns := by
  apply List.filter_eq_self.mpr
  intro a ha
  obtain ⟨r, hr, rfl⟩ := List.mem_map.mp ha
  rw [hp]
  exact hl r hr

/-- C8: every row surviving clean_data has a present price inside
[MIN_PRICE, MAX_PRICE] and a present area inside [MIN_M2, MAX_M2]. -/
theorem clean_data_bounds (df : List RawRow) (r : RawRow)
    (hr : r ∈ clean_data df) :
    ∃ p m, r.precio = some p ∧ r.metros_cuadrados = some m ∧
      MIN_PRICE ≤ p ∧ p ≤ MAX_PRICE ∧ MIN_M2 ≤ m ∧ m ≤ MAX_M2 := by
  unfold clean_data at hr
  obtain ⟨r0, hmem, rfl⟩ := List.mem_map.mp hr
  have hb : boundsCheck r0 = true := (List.mem_filter.mp hmem).2
  unfold boundsCheck at hb
  split at hb
  · rename_i p m hp hm
    refine ⟨p, m, ?_, ?_, ?_, ?_, ?_, ?_⟩ <;>
      simp_all [deriveColumns_precio, deriveColumns_metros]
  · simp at hb

def c8Row : RawRow :=
  ⟨some 100000, some 50, some " pocitos ", "venta", none, none, none, none⟩

theorem clean_data_bounds_witness :
    ∃ p m, (deriveColumns c8Row).precio = some p ∧
      (deriveColumns c8Row).metros_cuadrados = some m ∧
      MIN_PRICE ≤ p ∧ p ≤ MAX_PRICE ∧ MIN_M2 ≤ m ∧ m ≤ MAX_M2 :=
  clean_data_bounds [c8Row] (deriveColumns c8Row)
    (by
      have h : clean_data [c8Row] = [deriveColumns c8Row] := rfl
      rw [h]
      exact List.mem_singleton_self _)

/-- C9: clean_data is idempotent: every row produced by clean_data again
passes the dropna and range filters unchanged, and recomputing the
derived columns reproduces them. -/
theorem clean_data_idempotent (df : List RawRow) :
    clean_data (clean_data df) = clean_data df := by
  unfold clean_data
  set L0 := (df.filter dropnaCheck).filter boundsCheck with hL0
  have hdrop : ∀ r ∈ L0, dropnaCheck r = true := by
    intro r hrm
    rw [hL0] at hrm
    exact (List.mem_filter.mp (List.mem_filter.mp hrm).1).2
  have hbnd : ∀ r ∈ L0, boundsCheck r = true := by
    intro r hrm
    rw [hL0] at hrm
    exact (List.mem_filter.mp hrm).2
  rw [filter_map_deriveColumns dropnaCheck dropnaCheck_deriveColumns L0 hdrop,
    filter_map_deriveColumns boundsCheck boundsCheck_deriveColumns L0 hbnd,
    List.map_map]
  exact List.map_congr_left fun r _ => deriveColumns_deriveColumns r

/-! ## A stable insertion sort

pandas sort_values is modelled by a stable comparison sort: an element
moves before another exactly when the comparison strictly requires it.
On the small frames of this project numpy quicksort falls back to
insertion sort, so the model also matches the observed tie order. -/

def insertSortedBy (le : α → α → Bool) (x : α) : List α → List α
  | [] => [x]
  | y :: ys => if le x y then x :: y :: ys else y :: insertSortedBy le x ys

def sortBy (le : α → α → Bool) : List α → List α
  | [] => []
  | x :: xs => insertSortedBy le x (sortBy le xs)

theorem perm_insertSortedBy (le : α → α → Bool) (x : α) (l : List α) :
    List.Perm (insertSortedBy le x l) (x :: l) := by
  induction l with
  | nil => rfl
  | cons y ys ih =>
    rw [insertSortedBy]
    split
    · rfl
    · exact (List.Perm.cons y ih).trans (List.Perm.swap x y ys)

theorem perm_sortBy (le : α → α → Bool) (l : List α) :
    List.Perm (sortBy le l) l := by
  induction l with
  | nil => rfl
  | cons x xs ih =>
    exact (perm_insertSortedBy le x (sortBy le xs)).trans (List.Perm.cons x ih)

theorem pairwise_insertSortedBy (le : α → α → Bool)
    (htot : ∀ a b, le a b = true ∨ le b a = true)
    (htrans : ∀ a b c, le a b = true → le b c = true → le a c = true)
    (x : α) (l : List α) (hl : l.Pairwise (fun a b => le a b = true)) :
    (insertSortedBy le x l).Pairwise (fun a b => le a b = true) := by
  induction l with
  | nil => simp [insertSortedBy]
  | cons y ys ih =>
    rw [insertSortedBy]
    rcases List.pairwise_cons.mp hl with ⟨hy, hys⟩
    split
    · rename_i hxy
      refine List.pairwise_cons.mpr ⟨?_, hl⟩
      intro z hz
      rcases hz with _ | hz
      · exact hxy
      · exact htrans x y z hxy (hy z (by assumption))
    · rename_i hxy
      have hyx : le y x = true := by
        rcases htot x y with h | h
        · exact absurd h hxy
        · exact h
      refine List.pairwise_cons.mpr ⟨?_, ih hys⟩
      intro z hz
      have hz' : z ∈ x :: ys := (perm_insertSortedBy le x ys).mem_iff.mp hz
      rcases List.mem_cons.mp hz' with rfl | hz2
      · exact hyx
      · exact hy z hz2

theorem pairwise_sortBy (le : α → α → Bool)
    (htot : ∀ a b, le a b = true ∨ le b a = true)
    (htrans : ∀ a b c, le a b = true → le b c = true → le a c = true)
    (l : List α) :
    (sortBy le l).Pairwise (fun a b => le a b = true) := by
  induction l with
  | nil => simp [sortBy]
  | cons x xs ih => exact pairwise_insertSortedBy le htot htrans x (sortBy le xs) ih

/- Batteries marks the Rat field operations irreducible, which blocks the
elaborator when a theorem evaluates the model on concrete rows; restore
default transparency for them inside this development. -/
attribute [local semireducible] Rat.mul Rat.inv Rat.add Rat.sub Rat.ofScientific

/-! ## scraping/data_processor.py : DataProcessor.calculate_roi_potential -/

/-- The columns of the frame that calculate_roi_potential reads.  The
function is applied after cleaning, so the three columns it touches are
modelled as present (non-NaN). -/
structure PropRow where
  precio : ℚ
  barrio : String
  tipo_operacion : String
deriving DecidableEq

structure RoiRow where
  barrio : String
  precio_venta_promedio : ℚ
  precio_alquiler_mensual_promedio : ℚ
  roi_anual_porcentaje : ℚ
deriving DecidableEq

/-- groupby(barrio)[precio].mean() evaluated at one group key. -/
def groupMean (rows : List PropRow) (b : String) : ℚ :=
  let ps := (rows.filter (fun r => r.barrio == b)).map PropRow.precio
  ps.sum / (ps.length : ℚ)

/-- The index of groupby(barrio): the distinct neighborhoods of the
subset.  pandas sorts the group keys; the claims below only use which
keys are present, so the dedup order is left as encountered. -/
def groupKeys (rows : List PropRow) : List String :=
  (rows.map PropRow.barrio).dedup

/-- The venta subset of the frame (the local venta_avg groupby input). -/
def ventaSubset (df : List PropRow) : List PropRow :=
  df.filter (fun r => r.tipo_operacion == "venta")

/-- The alquiler subset of the frame. -/
def alquilerSubset (df : List PropRow) : List PropRow :=
  df.filter (fun r => r.tipo_operacion == "alquiler")

/-- The roi_data list built by the loop of calculate_roi_potential: for
each neighborhood of the venta group index that also appears in the
alquiler group index, the two averages and the ROI formula
(alquiler mensual * 12 / precio venta) * 100.  The division is performed
exactly as in the source, with no guard on a zero sale price. -/
def roiData (df : List PropRow) : List RoiRow :=
  (groupKeys (ventaSubset df)).filterMap (fun b =>
    if (groupKeys (alquilerSubset df)).contains b then
      some ⟨b, groupMean (ventaSubset df) b, groupMean (alquilerSubset df) b,
        groupMean (alquilerSubset df) b * 12 / groupMean (ventaSubset df) b * 100⟩
    else none)

/-- DataProcessor.calculate_roi_potential: roi_data sorted descending by
roi_anual_porcentaje. -/
def calculate_roi_potential (df : List PropRow) : List RoiRow :=
  sortBy (fun a b => decide (b.roi_anual_porcentaje ≤ a.roi_anual_porcentaje))
    (roiData df)

theorem mem_groupKeys {rows : List PropRow} {b : String}
    (hb : b ∈ groupKeys rows) : ∃ p ∈ rows, p.barrio = b := by
  unfold groupKeys at hb
  obtain ⟨p, hp, hpb⟩ := List.mem_map.mp (List.mem_dedup.mp hb)
  exact ⟨p, hp, hpb⟩

/-- C7: every neighborhood of the ROI result appears in a sale row and
in a rent row of the input table. -/
theorem calculate_roi_potential_both_subsets (df : List PropRow) (r : RoiRow)
    (hr : r ∈ calculate_roi_potential df) :
    (∃ p ∈ df, p.tipo_operacion = "venta" ∧ p.barrio = r.barrio) ∧
    (∃ p ∈ df, p.tipo_operacion = "alquiler" ∧ p.barrio = r.barrio) := by
  unfold calculate_roi_potential at hr
  rw [(perm_sortBy _ _).mem_iff] at hr
  obtain ⟨b, hbmem, hbeq⟩ := List.mem_filterMap.mp hr
  by_cases hcont : (groupKeys (alquilerSubset df)).contains b
  · rw [if_pos hcont] at hbeq
    have hbarrio : r.barrio = b := by
      cases hbeq
      rfl
    constructor
    · obtain ⟨p, hp, hpb⟩ := mem_groupKeys hbmem
      unfold ventaSubset at hp
      rcases List.mem_filter.mp hp with ⟨hpd, hpv⟩
      exact ⟨p, hpd, by simpa using hpv, hbarrio ▸ hpb⟩
    · obtain ⟨p, hp, hpb⟩ := mem_groupKeys
        (show b ∈ groupKeys (alquilerSubset df) by simpa using hcont)
      unfold alquilerSubset at hp
      rcases List.mem_filter.mp hp with ⟨hpd, hpv⟩
      exact ⟨p, hpd, by simpa using hpv, hbarrio ▸ hpb⟩
  · rw [if_neg hcont] at hbeq
    exact absurd hbeq (by simp)

theorem calculate_roi_potential_both_subsets_witness :
    (∃ p ∈ [(⟨100000, "Pocitos", "venta"⟩ : PropRow),
        ⟨1200, "Pocitos", "alquiler"⟩],
      p.tipo_operacion = "venta" ∧
        p.barrio = (⟨"Pocitos", 100000, 1200, 1200 * 12 / 100000 * 100⟩ :
          RoiRow).barrio) ∧
    (∃ p ∈ [(⟨100000, "Pocitos", "venta"⟩ : PropRow),
        ⟨1200, "Pocitos", "alquiler"⟩],
      p.tipo_operacion = "alquiler" ∧
        p.barrio = (⟨"Pocitos", 100000, 1200, 1200 * 12 / 100000 * 100⟩ :
          RoiRow).barrio) :=
  calculate_roi_potential_both_subsets
    [⟨100000, "Pocitos", "venta"⟩, ⟨1200, "Pocitos", "alquiler"⟩]
    ⟨"Pocitos", 100000, 1200, 1200 * 12 / 100000 * 100⟩
    (by
      have h : calculate_roi_potential
          [⟨100000, "Pocitos", "venta"⟩, ⟨1200, "Pocitos", "alquiler"⟩]
          = [⟨"Pocitos", 100000, 1200, 1200 * 12 / 100000 * 100⟩] := by decide
      rw [h]
      exact List.mem_singleton_self _)

/-- C4 counterexample: a neighborhood whose average sale price is zero is
not skipped by calculate_roi_potential: it appears in the ROI output and
the division is performed on the zero denominator (a float infinity in
the implementation; the rational model records the absorbing value 0). -/
theorem calculate_roi_potential_zero_not_skipped :
    (calculate_roi_potential [⟨0, "X", "venta"⟩, ⟨1200, "X", "alquiler"⟩]).map
      (fun r => (r.barrio, r.precio_venta_promedio)) = [("X", 0)] := by decide

theorem groupMean_pos (rows : List PropRow) (b : String)
    (hpos : ∀ p ∈ rows, 0 < p.precio) (hne : ∃ p ∈ rows, p.barrio = b) :
    0 < groupMean rows b := by
  unfold groupMean
  obtain ⟨p, hp, hpb⟩ := hne
  have hpmem : p.precio ∈ (rows.filter (fun r => r.barrio == b)).map
      PropRow.precio :=
    List.mem_map_of_mem _ (List.mem_filter.mpr ⟨hp, by simp [hpb]⟩)
  have hne' : (rows.filter (fun r => r.barrio == b)).map PropRow.precio ≠ [] :=
    List.ne_nil_of_mem hpmem
  have hsum : 0 < ((rows.filter (fun r => r.barrio == b)).map
      PropRow.precio).sum := by
    apply List.sum_pos _ _ hne'
    intro x hx
    obtain ⟨q, hq, rfl⟩ := List.mem_map.mp hx
    exact hpos q (List.mem_of_mem_filter hq)
  have hlen : (0 : ℚ) < (((rows.filter (fun r => r.barrio == b)).map
      PropRow.precio).length : ℚ) := by
    have := List.length_pos.mpr hne'
    exact_mod_cast this
  exact div_pos hsum hlen

/-- C4 (amended): calculate_roi_potential has no zero guard, but whenever
every price of the input table is positive (in particular after
clean_data, whose rows all have precio at least MIN_PRICE) every average
sale price of the ROI output is positive, so the ROI division is never
by zero. -/
theorem calculate_roi_potential_pos_sale_price (df : List PropRow)
    (hpos : ∀ p ∈ df, 0 < p.precio) (r : RoiRow)
    (hr : r ∈ calculate_roi_potential df) :
    0 < r.precio_venta_promedio := by
  unfold calculate_roi_potential at hr
  rw [(perm_sortBy _ _).mem_iff] at hr
  obtain ⟨b, hbmem, hbeq⟩ := List.mem_filterMap.mp (by
    unfold roiData at hr
    exact hr)
  by_cases hcont : (groupKeys (alquilerSubset df)).contains b
  · rw [if_pos hcont] at hbeq
    have hval : r.precio_venta_promedio = groupMean (ventaSubset df) b := by
      cases hbeq
      rfl
    rw [hval]
    apply groupMean_pos
    · intro p hp
      exact hpos p (List.mem_of_mem_filter hp)
    · obtain ⟨p, hp, hpb⟩ := mem_groupKeys hbmem
      exact ⟨p, hp, hpb⟩
  · rw [if_neg hcont] at hbeq
    exact absurd hbeq (by simp)

theorem calculate_roi_potential_pos_sale_price_witness :
    0 < ((⟨"Pocitos", 100000, 1200, 1200 * 12 / 100000 * 100⟩ :
      RoiRow)).precio_venta_promedio :=
  calculate_roi_potential_pos_sale_price
    [⟨100000, "Pocitos", "venta"⟩, ⟨1200, "Pocitos", "alquiler"⟩]
    (by decide)
    ⟨"Pocitos", 100000, 1200, 1200 * 12 / 100000 * 100⟩
    (by decide)

/-! ## machine_learning/optimizer.py : InvestmentOptimizer -/

/-- The columns of propiedades_limpias.csv that the optimizer reads.
The display-only columns dormitorios and banos, selected by
get_top_opportunities purely for presentation, are omitted. -/
structure Listing where
  barrio : String
  precio : ℚ
  metros_cuadrados : ℚ
  precio_por_m2 : ℚ
  tipo_operacion : String
deriving DecidableEq

/-- The two columns of roi_por_barrio.csv that the optimizer merges. -/
structure RoiEntry where
  barrio : String
  roi_anual_porcentaje : ℚ
deriving DecidableEq

/-- A row of the scored venta_props frame.  The ROI column can be NaN
(modelled none) when no candidate of the query joins an ROI entry; the
two other metric columns are always present. -/
structure ScoredListing where
  listing : Listing
  roi_anual_porcentaje : Option ℚ
  score_roi : Option ℚ
  score_precio_m2 : ℚ
  score_tamano : ℚ
  investment_score : Option ℚ
deriving DecidableEq

/-- The candidate filter of calculate_investment_score: venta rows whose
price lies in the budget range. -/
def budgetFilter (properties_df : List Listing) (budget_min budget_max : ℚ) :
    List Listing :=
  properties_df.filter (fun p =>
    p.tipo_operacion == "venta" && decide (budget_min ≤ p.precio) &&
      decide (p.precio ≤ budget_max))

/-- The left merge with roi_df on barrio (roi_df is keyed by barrio, as
produced by calculate_roi_potential, so the first match is the match). -/
def lookupRoi (roi_df : List RoiEntry) (b : String) : Option ℚ :=
  (roi_df.find? (fun r => r.barrio == b)).map RoiEntry.roi_anual_porcentaje

/-- pandas Series.median: NaN entries are ignored; the median of an
empty series is NaN (none); an even count averages the two middle
values. -/
def median? (l : List ℚ) : Option ℚ :=
  let s := sortBy (fun a b => decide (a ≤ b)) l
  if s.length = 0 then none
  else if s.length % 2 = 1 then some (s.getD (s.length / 2) 0)
  else some ((s.getD (s.length / 2 - 1) 0 + s.getD (s.length / 2) 0) / 2)

/-- The fillna step: a missing ROI is replaced by the median ROI of the
merged column; when the median itself is NaN (no candidate has an ROI)
the row stays NaN. -/
def filledRoi (roi_df : List RoiEntry) (venta_props : List Listing)
    (p : Listing) : Option ℚ :=
  match lookupRoi roi_df p.barrio with
  | some v => some v
  | none => median? (venta_props.filterMap (fun q => lookupRoi roi_df q.barrio))

/-- The ROI column after fillna, without its NaN entries (what
MinMaxScaler fits on). -/
def roiVals (roi_df : List RoiEntry) (venta_props : List Listing) : List ℚ :=
  venta_props.filterMap (filledRoi roi_df venta_props)

def pm2Vals (venta_props : List Listing) : List ℚ :=
  venta_props.map Listing.precio_por_m2

def m2Vals (venta_props : List Listing) : List ℚ :=
  venta_props.map Listing.metros_cuadrados

def listMin : List ℚ → ℚ
  | [] => 0
  | [x] => x
  | x :: y :: rest => min x (listMin (y :: rest))

def listMax : List ℚ → ℚ
  | [] => 0
  | [x] => x
  | x :: y :: rest => max x (listMax (y :: rest))

/-- sklearn MinMaxScaler on one value of a fitted column: the scale is
1 / (max - min), with a zero range replaced by 1
(handle_zeros_in_scale), so a constant column maps to 0, not 0.5. -/
def scale (mn mx x : ℚ) : ℚ := (x - mn) / (if mx = mn then 1 else mx - mn)

/-- The weight table keyed by risk tolerance; every string other than
low and medium falls into the else branch, receiving the high-risk
weights. -/
def weights (risk_tolerance : String) : ℚ × ℚ × ℚ :=
  if risk_tolerance == "low" then (0.3, 0.4, 0.3)
  else if risk_tolerance == "medium" then (0.4, 0.3, 0.3)
  else (0.6, 0.2, 0.2)

/-- The scored columns of one candidate row: min-max scaled ROI, the
inverted scaled price per square metre, the scaled size, and the
weighted investment score (NaN propagates from the ROI column). -/
def scoreListing (roi_df : List RoiEntry) (venta_props : List Listing)
    (w : ℚ × ℚ × ℚ) (p : Listing) : ScoredListing :=
  let roiF := filledRoi roi_df venta_props p
  let sroi := roiF.map
    (scale (listMin (roiVals roi_df venta_props))
      (listMax (roiVals roi_df venta_props)))
  let spm2 := 1 - scale (listMin (pm2Vals venta_props))
    (listMax (pm2Vals venta_props)) p.precio_por_m2
  let stam := scale (listMin (m2Vals venta_props))
    (listMax (m2Vals venta_props)) p.metros_cuadrados
  { listing := p
    roi_anual_porcentaje := roiF
    score_roi := sroi
    score_precio_m2 := spm2
    score_tamano := stam
    investment_score := sroi.map (fun r => r * w.1 + spm2 * w.2.1 + stam * w.2.2) }

/-- The scored frame before sorting, in dataframe order. -/
def scoredList (properties_df : List Listing) (roi_df : List RoiEntry)
    (budget_min budget_max : ℚ) (risk_tolerance : String) :
    List ScoredListing :=
  (budgetFilter properties_df budget_min budget_max).map
    (scoreListing roi_df (budgetFilter properties_df budget_min budget_max)
      (weights risk_tolerance))

/-- The comparison of sort_values(investment_score, ascending=False):
descending on present scores, NaN sorted last. -/
def scoreLe (a b : ScoredListing) : Bool :=
  match a.investment_score, b.investment_score with
  | some x, some y => decide (y ≤ x)
  | some _, none => true
  | none, some _ => false
  | none, none => true

/-- InvestmentOptimizer.calculate_investment_score: returns None (the
printed no-candidates message) when the budget filter is empty, else the
scored frame sorted descending by investment_score. -/
def calculate_investment_score (properties_df : List Listing)
    (roi_df : List RoiEntry) (budget_min budget_max : ℚ)
    (risk_tolerance : String) : Option (List ScoredListing) :=
  if budgetFilter properties_df budget_min budget_max = [] then none
  else some (sortBy scoreLe
    (scoredList properties_df roi_df budget_min budget_max risk_tolerance))

/-- InvestmentOptimizer.get_top_opportunities on the stored
investment_scores frame; the column selection and round(2) of the
source affect only the displayed columns, not which rows are taken. -/
def get_top_opportunities (investment_scores : List ScoredListing)
    (n : Nat) : List ScoredListing :=
  investment_scores.take n

/-- Needle is a prefix of hay. -/
def startsWithChars : List Char → List Char → Bool
  | [], _ => true
  | _ :: _, [] => false
  | a :: as, b :: bs => a == b && startsWithChars as bs

/-- Needle occurs as a contiguous substring of hay. -/
def containsChars (hay needle : List Char) : Bool :=
  match hay with
  | [] => needle.isEmpty
  | _ :: rest => startsWithChars needle hay || containsChars rest needle

/-- Series.str.contains(pat, case=False) for a literal pattern:
case-insensitive substring containment. -/
def containsCI (s filt : String) : Bool :=
  containsChars (s.data.map pyLowerChar) (filt.data.map pyLowerChar)

/-- The dictionary returned by get_investment_recommendation.  The
per-neighborhood rollup (analyze_by_neighborhood) is display-only and
not referenced by any claim, so it is not modelled. -/
structure Recommendation where
  top_opportunities : List ScoredListing
  best_opportunity : Option ScoredListing
deriving DecidableEq

/-- InvestmentOptimizer.get_investment_recommendation.  The source
filters the scored frame by barrio containment into a local variable
but then builds top_10 from self.investment_scores, the unfiltered
frame stored by calculate_investment_score; the model reproduces that
data flow faithfully (the filtered frame is computed and dropped). -/
def get_investment_recommendation (properties_df : List Listing)
    (roi_df : List RoiEntry) (budget_min budget_max : ℚ)
    (risk_tolerance : String) (location_preference : Option String) :
    Option Recommendation :=
  match calculate_investment_score properties_df roi_df budget_min budget_max
    risk_tolerance with
  | none => none
  | some investment_scores =>
    let _opportunities := match location_preference with
      | some loc =>
        investment_scores.filter
          (fun s : ScoredListing => containsCI s.listing.barrio loc)
      | none => investment_scores
    let top_10 := get_top_opportunities investment_scores 10
    some { top_opportunities := top_10, best_opportunity := top_10.head? }

/-! ## Claims on the Scorer and the Recommender -/

/-- C6 counterexample: a call with budget_min greater than budget_max
returns the very same None value as the valid empty-result state (the
spec scenario budget 90000..90000 with no listing at that price); no
distinct validation failure is raised for the malformed range. -/
theorem budget_range_inverted_same_as_no_candidates :
    calculate_investment_score [⟨"Pocitos", 150000, 50, 3000, "venta"⟩]
      [] 300000 100000 "medium" = none ∧
    calculate_investment_score [⟨"Pocitos", 150000, 50, 3000, "venta"⟩]
      [] 90000 90000 "medium" = none :=
  ⟨by decide, by decide⟩

/-- C6 (amended): an inverted budget range is not rejected with a
descriptive error; the budget filter is simply empty and the scorer
returns the None of the no-candidates state. -/
theorem calculate_investment_score_inverted_range (properties_df : List Listing)
    (roi_df : List RoiEntry) (budget_min budget_max : ℚ)
    (risk_tolerance : String) (h : budget_max < budget_min) :
    calculate_investment_score properties_df roi_df budget_min budget_max
      risk_tolerance = none := by
  have hf : budgetFilter properties_df budget_min budget_max = [] := by
    unfold budgetFilter
    rw [List.filter_eq_nil_iff]
    intro p _
    simp only [Bool.and_eq_true, decide_eq_true_eq, not_and]
    intro ⟨_, h1⟩ h2
    exact absurd (h1.trans h2) (not_le.mpr h)
  unfold calculate_investment_score
  rw [hf]
  simp

theorem calculate_investment_score_inverted_range_witness :
    calculate_investment_score [⟨"Pocitos", 150000, 50, 3000, "venta"⟩]
      [] 300000 100000 "low" = none :=
  calculate_investment_score_inverted_range _ _ _ _ _ (by decide)

/-- C10: every risk_tolerance other than low and medium, including
misspellings and different casing, silently selects the high-risk
weight table and produces exactly the result of a high call. -/
theorem calculate_investment_score_unknown_tolerance
    (properties_df : List Listing) (roi_df : List RoiEntry)
    (budget_min budget_max : ℚ) (risk_tolerance : String)
    (h1 : risk_tolerance ≠ "low") (h2 : risk_tolerance ≠ "medium") :
    calculate_investment_score properties_df roi_df budget_min budget_max
        risk_tolerance
      = calculate_investment_score properties_df roi_df budget_min budget_max
        "high" ∧
    weights risk_tolerance = (0.6, 0.2, 0.2) := by
  have hw : weights risk_tolerance = (0.6, 0.2, 0.2) := by
    simp [weights, h1, h2]
  constructor
  · have hw' : weights risk_tolerance = weights "high" := by
      rw [hw]
      decide
    unfold calculate_investment_score scoredList
    rw [hw']
  · exact hw

theorem calculate_investment_score_unknown_tolerance_witness :
    calculate_investment_score [⟨"Pocitos", 100000, 50, 2000, "venta"⟩]
        [⟨"Pocitos", 12⟩] 50000 300000 "hgih"
      = calculate_investment_score [⟨"Pocitos", 100000, 50, 2000, "venta"⟩]
        [⟨"Pocitos", 12⟩] 50000 300000 "high" ∧
    weights "hgih" = (0.6, 0.2, 0.2) :=
  calculate_investment_score_unknown_tolerance _ _ _ _ "hgih"
    (by decide) (by decide)

/-- C2: the location filter of get_investment_recommendation is computed
and then dropped: top_10 is taken from the unfiltered stored frame, so
with filter Centro the top list still holds a Pocitos listing whose
name does not contain the filter, contradicting both the restriction
and the NoCandidates-on-empty-filter behaviour stated by the spec. -/
theorem get_investment_recommendation_ignores_location :
    (get_investment_recommendation
      [⟨"Pocitos", 100000, 50, 2000, "venta"⟩,
       ⟨"Centro", 120000, 60, 2000, "venta"⟩]
      [⟨"Pocitos", 10⟩, ⟨"Centro", 5⟩] 50000 300000 "medium"
      (some "Centro")).map
      (fun rec => rec.top_opportunities.map
        (fun s => (s.listing.barrio, containsCI s.listing.barrio "Centro")))
    = some [("Pocitos", false), ("Centro", true)] := by decide

/-- C1 counterexample: on a single-candidate set the three score
components are 0, 1 and 0 (not the neutral 0.5 each) and the investment
score equals the price-per-area weight of the profile (0.3 for medium),
so it does depend on the weight table. -/
theorem singleton_scores_not_neutral :
    (calculate_investment_score [⟨"Pocitos", 100000, 50, 2000, "venta"⟩]
      [⟨"Pocitos", 12⟩] 50000 300000 "medium").map
      (List.map (fun s => (s.score_roi, s.score_precio_m2, s.score_tamano,
        s.investment_score)))
    ≠ some [(some (1 / 2), 1 / 2, 1 / 2, some (1 / 2))] ∧
    (calculate_investment_score [⟨"Pocitos", 100000, 50, 2000, "venta"⟩]
      [⟨"Pocitos", 12⟩] 50000 300000 "medium").map
      (List.map (fun s => (s.score_roi, s.score_precio_m2, s.score_tamano,
        s.investment_score)))
    = some [(some 0, 1, 0, some (3 / 10))] :=
  ⟨by decide, by decide⟩

/-- C1 (amended): a zero-variance metric column is scaled to 0 by
MinMaxScaler, not to 0.5; for a single candidate with an ROI entry the
scores are therefore roi 0, price-per-area 1 - 0 = 1, size 0, and the
investment score equals the price-per-area weight of the chosen
profile. -/
theorem calculate_investment_score_singleton (p : Listing)
    (roi_df : List RoiEntry) (budget_min budget_max : ℚ)
    (risk_tolerance : String) (r : ℚ)
    (hv : p.tipo_operacion = "venta") (h1 : budget_min ≤ p.precio)
    (h2 : p.precio ≤ budget_max) (hroi : lookupRoi roi_df p.barrio = some r) :
    calculate_investment_score [p] roi_df budget_min budget_max risk_tolerance
      = some [⟨p, some r, some 0, 1, 0,
          some ((weights risk_tolerance).2.1)⟩] := by
  have hfilter : budgetFilter [p] budget_min budget_max = [p] := by
    simp [budgetFilter, hv, h1, h2]
  unfold calculate_investment_score
  rw [hfilter, if_neg (by simp)]
  unfold scoredList
  rw [hfilter]
  simp only [List.map_cons, List.map_nil]
  show some (sortBy scoreLe [_]) = _
  rw [show ∀ x : ScoredListing, sortBy scoreLe [x] = [x] from fun x => rfl]
  simp only [Option.some.injEq, List.cons.injEq, and_true]
  unfold scoreListing
  simp only [filledRoi, hroi, roiVals, pm2Vals, m2Vals,
    List.filterMap_cons, List.filterMap_nil, List.map_cons, List.map_nil,
    listMin, listMax, scale, if_pos rfl, sub_self, zero_div,
    Option.map_some]
  have hsrr : scale r r r = 0 := by simp [scale]
  simp [hsrr]

theorem calculate_investment_score_singleton_witness :
    calculate_investment_score [⟨"Pocitos", 100000, 50, 2000, "venta"⟩]
      [⟨"Pocitos", 12⟩] 50000 300000 "low"
      = some [⟨⟨"Pocitos", 100000, 50, 2000, "venta"⟩, some 12, some 0, 1, 0,
          some ((weights "low").2.1)⟩] :=
  calculate_investment_score_singleton _ _ _ _ "low" 12 rfl
    (by decide) (by decide) (by decide)

/-- C3 counterexample: two candidates with equal investment score 3/10
where the higher-priced listing (200000) entered the frame first and
stays first: no tie-break by lower price (nor by neighborhood) is
applied by sort_values. -/
theorem equal_scores_higher_price_first :
    (calculate_investment_score
      [⟨"Pocitos", 200000, 100, 2000, "venta"⟩,
       ⟨"Pocitos", 50000, 50, 1000, "venta"⟩]
      [⟨"Pocitos", 10⟩] 50000 300000 "medium").map
      (List.map (fun s => (s.listing.precio, s.investment_score)))
    = some [(200000, some (3 / 10)), (50000, some (3 / 10))] := by decide

theorem scoreLe_total (a b : ScoredListing) :
    scoreLe a b = true ∨ scoreLe b a = true := by
  unfold scoreLe
  cases a.investment_score with
  | none => cases b.investment_score <;> simp
  | some x =>
    cases b.investment_score with
    | none => simp
    | some y => simpa using le_total y x

theorem scoreLe_trans (a b c : ScoredListing) (h1 : scoreLe a b = true)
    (h2 : scoreLe b c = true) : scoreLe a c = true := by
  unfold scoreLe at h1 h2 ⊢
  cases ha : a.investment_score <;>
    cases hb : b.investment_score <;>
      cases hc : c.investment_score <;>
        simp_all <;> exact h2.trans h1

/-- C3 (amended): the scorer output is sorted so that each listing
weakly precedes the next by investment score (descending, NaN last) and
is a permutation of the scored candidate frame; no price or
neighborhood tie-break beyond that ordering is performed. -/
theorem calculate_investment_score_sorted (properties_df : List Listing)
    (roi_df : List RoiEntry) (budget_min budget_max : ℚ)
    (risk_tolerance : String) (l : List ScoredListing)
    (h : calculate_investment_score properties_df roi_df budget_min budget_max
      risk_tolerance = some l) :
    l.Pairwise (fun a b => scoreLe a b = true) ∧
    List.Perm l
      (scoredList properties_df roi_df budget_min budget_max risk_tolerance) := by
  unfold calculate_investment_score at h
  split at h
  · cases h
  · injection h with h'
    subst h'
    exact ⟨pairwise_sortBy scoreLe scoreLe_total scoreLe_trans _,
      perm_sortBy scoreLe _⟩

theorem calculate_investment_score_sorted_witness :
    ([⟨⟨"Pocitos", 100000, 50, 2000, "venta"⟩, some 12, some 0, 1, 0,
        some (3 / 10)⟩] : List ScoredListing).Pairwise
      (fun a b => scoreLe a b = true) ∧
    List.Perm
      ([⟨⟨"Pocitos", 100000, 50, 2000, "venta"⟩, some 12, some 0, 1, 0,
        some (3 / 10)⟩] : List ScoredListing)
      (scoredList [⟨"Pocitos", 100000, 50, 2000, "venta"⟩] [⟨"Pocitos", 12⟩]
        50000 300000 "medium") :=
  calculate_investment_score_sorted _ _ _ _ "medium" _ (by decide)

/-- C5 counterexample: when no candidate of the query joins an ROI
entry, the median of the empty ROI column is NaN, fillna leaves the
column NaN and score_roi is NaN for every row, hence not inside
[0, 1]. -/
theorem score_roi_nan_when_no_roi :
    (calculate_investment_score [⟨"Pocitos", 100000, 50, 2000, "venta"⟩]
      [] 50000 300000 "medium").map (List.map ScoredListing.score_roi)
    = some [none] ∧
    ¬ ∃ v : ℚ, (none : Option ℚ) = some v ∧ 0 ≤ v ∧ v ≤ 1 :=
  ⟨by decide, by simp⟩

theorem listMin_le {l : List ℚ} {x : ℚ} (hx : x ∈ l) : listMin l ≤ x := by
  induction l with
  | nil => cases hx
  | cons a t ih =>
    cases t with
    | nil =>
      have : x = a := by simpa using hx
      subst this
      exact le_refl _
    | cons b t' =>
      rw [listMin]
      rcases List.mem_cons.mp hx with rfl | hx'
      · exact min_le_left _ _
      · exact (min_le_right _ _).trans (ih hx')

theorem le_listMax {l : List ℚ} {x : ℚ} (hx : x ∈ l) : x ≤ listMax l := by
  induction l with
  | nil => cases hx
  | cons a t ih =>
    cases t with
    | nil =>
      have : x = a := by simpa using hx
      subst this
      exact le_refl _
    | cons b t' =>
      rw [listMax]
      rcases List.mem_cons.mp hx with rfl | hx'
      · exact le_max_left _ _
      · exact (ih hx').trans (le_max_right _ _)

theorem scale_bounds {l : List ℚ} {x : ℚ} (hx : x ∈ l) :
    0 ≤ scale (listMin l) (listMax l) x ∧ scale (listMin l) (listMax l) x ≤ 1 := by
  have h1 := listMin_le hx
  have h2 := le_listMax hx
  unfold scale
  by_cases heq : listMax l = listMin l
  · rw [if_pos heq]
    have hxx : x = listMin l := le_antisymm (heq ▸ h2) h1
    simp [hxx]
  · rw [if_neg heq]
    have hlt : listMin l < listMax l := lt_of_le_of_ne (h1.trans h2) (Ne.symm heq)
    have hd : 0 < listMax l - listMin l := sub_pos.mpr hlt
    constructor
    · exact div_nonneg (sub_nonneg.mpr h1) hd.le
    · rw [div_le_one hd]
      exact sub_le_sub_right h2 _

/-- C5 (amended): on every scored row the price-per-area and size scores
lie in [0, 1], and the ROI score lies in [0, 1] whenever it is a number
at all; it is NaN exactly when no candidate of the query has an ROI
(the counterexample above), which is the only way a score leaves
[0, 1]. -/
theorem calculate_investment_score_bounds (properties_df : List Listing)
    (roi_df : List RoiEntry) (budget_min budget_max : ℚ)
    (risk_tolerance : String) (l : List ScoredListing)
    (h : calculate_investment_score properties_df roi_df budget_min budget_max
      risk_tolerance = some l)
    (s : ScoredListing) (hs : s ∈ l) :
    0 ≤ s.score_precio_m2 ∧ s.score_precio_m2 ≤ 1 ∧
    0 ≤ s.score_tamano ∧ s.score_tamano ≤ 1 ∧
    ∀ v : ℚ, s.score_roi = some v → 0 ≤ v ∧ v ≤ 1 := by
  unfold calculate_investment_score at h
  split at h
  · cases h
  · injection h with h'
    subst h'
    rw [(perm_sortBy _ _).mem_iff] at hs
    unfold scoredList at hs
    obtain ⟨p, hp, rfl⟩ := List.mem_map.mp hs
    have hm2 : p.metros_cuadrados ∈
        m2Vals (budgetFilter properties_df budget_min budget_max) :=
      List.mem_map_of_mem _ hp
    have hpm2 : p.precio_por_m2 ∈
        pm2Vals (budgetFilter properties_df budget_min budget_max) :=
      List.mem_map_of_mem _ hp
    have hb2 := scale_bounds hm2
    have hb3 := scale_bounds hpm2
    refine ⟨?_, ?_, ?_, ?_, ?_⟩
    · show (0 : ℚ) ≤ 1 - scale _ _ _
      linarith [hb3.2]
    · show (1 : ℚ) - scale _ _ _ ≤ 1
      linarith [hb3.1]
    · exact hb2.1
    · exact hb2.2
    · intro v hv
      rw [show (scoreListing roi_df
            (budgetFilter properties_df budget_min budget_max)
            (weights risk_tolerance) p).score_roi
          = (filledRoi roi_df
              (budgetFilter properties_df budget_min budget_max) p).map
            (scale
              (listMin (roiVals roi_df
                (budgetFilter properties_df budget_min budget_max)))
              (listMax (roiVals roi_df
                (budgetFilter properties_df budget_min budget_max))))
          from rfl] at hv
      rw [Option.map_eq_some'] at hv
      obtain ⟨r, hr, hveq⟩ := hv
      subst hveq
      exact scale_bounds (List.mem_filterMap.mpr ⟨p, hp, hr⟩)

theorem calculate_investment_score_bounds_witness :
    0 ≤ (⟨⟨"Pocitos", 100000, 50, 2000, "venta"⟩, some 12, some 0, 1, 0,
        some (3 / 10)⟩ : ScoredListing).score_precio_m2 ∧
    (⟨⟨"Pocitos", 100000, 50, 2000, "venta"⟩, some 12, some 0, 1, 0,
        some (3 / 10)⟩ : ScoredListing).score_precio_m2 ≤ 1 ∧
    0 ≤ (⟨⟨"Pocitos", 100000, 50, 2000, "venta"⟩, some 12, some 0, 1, 0,
        some (3 / 10)⟩ : ScoredListing).score_tamano ∧
    (⟨⟨"Pocitos", 100000, 50, 2000, "venta"⟩, some 12, some 0, 1, 0,
        some (3 / 10)⟩ : ScoredListing).score_tamano ≤ 1 ∧
    ∀ v : ℚ, (⟨⟨"Pocitos", 100000, 50, 2000, "venta"⟩, some 12, some 0, 1, 0,
        some (3 / 10)⟩ : ScoredListing).score_roi = some v →
      0 ≤ v ∧ v ≤ 1 :=
  calculate_investment_score_bounds
    [⟨"Pocitos", 100000, 50, 2000, "venta"⟩] [⟨"Pocitos", 12⟩]
    50000 300000 "medium" _ (by decide) _ (List.mem_singleton_self _)

end ProyectoD
